import Mathlib

/-!
Shallow embedding of the jpdict background worker
(`src/worker/jpdict-worker.ts`) and of the badge-determination section of the
browser-action presenter (`src/background/browser-action.ts`).

The worker's module-level mutable variables (`db`, `currentUpdate`,
`lastUpdateError`) become an explicit `WorkerState` record; every operation
becomes a pure state transformer returning the new state together with the
list of observable effects (posted messages and calls into the
`@birchill/jpdict-idb` store) in the order the source produces them.
-/

namespace JpdictWorker

/-- The three major data series, as in jpdict-idb's `MajorDataSeries` union
(`'words' | 'kanji' | 'names'`).  `currentUpdate.series` ranges over these. -/
inductive MajorDataSeries where
  | words
  | kanji
  | names
deriving DecidableEq

/-- The full `DataSeries` union of jpdict-idb: the major series plus
`radicals` (which is refreshed as a side effect of the kanji step). -/
inductive DataSeries where
  | words
  | kanji
  | radicals
  | names
deriving DecidableEq

/-- jpdict-idb's `allMajorDataSeries` constant: `['words', 'kanji', 'names']`. -/
def allMajorDataSeries : List MajorDataSeries :=
  [MajorDataSeries.words, MajorDataSeries.kanji, MajorDataSeries.names]

def MajorDataSeries.toDataSeries : MajorDataSeries → DataSeries
  | .words => DataSeries.words
  | .kanji => DataSeries.kanji
  | .names => DataSeries.names

/-- The series name as it appears in template strings. -/
def MajorDataSeries.toStr : MajorDataSeries → String
  | .words => "words"
  | .kanji => "kanji"
  | .names => "names"

def DataSeries.toStr : DataSeries → String
  | .words => "words"
  | .kanji => "kanji"
  | .radicals => "radicals"
  | .names => "names"

/-- A dataset's load state (`DataSeriesState` in jpdict-idb):
`'init' | 'empty' | 'ok' | 'unavailable'`. -/
inductive LoadState where
  | init
  | empty
  | ok
  | unavailable
deriving DecidableEq

/-- Version metadata carried verbatim through snapshots; the worker never
inspects it. -/
structure VersionInfo where
  major : Nat
  minor : Nat
  patch : Nat
deriving DecidableEq

/-- The store's per-series `updateState` union.  Timestamps (`lastCheck`,
a `Date | null`) are modelled as `Option Nat` (milliseconds since epoch);
`totalProgress` is an abstract number the worker never inspects. -/
inductive UpdateState where
  | idle (lastCheck : Option Nat)
  | checking (series : DataSeries) (lastCheck : Option Nat)
  | updating (series : DataSeries) (totalProgress : Nat) (lastCheck : Option Nat)
deriving DecidableEq

def UpdateState.lastCheck : UpdateState → Option Nat
  | .idle lc => lc
  | .checking _ lc => lc
  | .updating _ _ lc => lc

/-- One dataset record of the store: `{ state, version, updateState }`. -/
structure DataSeriesInfo where
  state : LoadState
  version : Option VersionInfo
  updateState : UpdateState
deriving DecidableEq

/-- The store (`JpdictIdb`) as the worker reads it: one record per dataset. -/
structure JpdictIdb where
  words : DataSeriesInfo
  kanji : DataSeriesInfo
  radicals : DataSeriesInfo
  names : DataSeriesInfo
deriving DecidableEq

def JpdictIdb.getSeries (db : JpdictIdb) : DataSeries → DataSeriesInfo
  | .words => db.words
  | .kanji => db.kanji
  | .radicals => db.radicals
  | .names => db.names

/-- `db[series]` for a major series. -/
def JpdictIdb.getMajor (db : JpdictIdb) (s : MajorDataSeries) : DataSeriesInfo :=
  db.getSeries s.toDataSeries

/-- JS number coercion applied by `Math.max` to a `Date | null` value:
`Number(null) = 0`, a date is its timestamp. -/
def dateValue : Option Nat → Nat
  | none => 0
  | some t => t

/-- `getLatestCheckTime` (jpdict-worker.ts lines 297-304): the maximum
`lastCheck` across `allMajorDataSeries`, `null` when that maximum is `0`. -/
def getLatestCheckTime (db : JpdictIdb) : Option Nat :=
  let latestCheckAsNumber :=
    (allMajorDataSeries.map fun s => dateValue ((db.getMajor s).updateState.lastCheck)).foldl
      max 0
  if latestCheckAsNumber = 0 then none else some latestCheckAsNumber

/-- The single live update job (`currentUpdate`). -/
structure UpdateJob where
  lang : String
  series : MajorDataSeries
  forceUpdate : Bool
deriving DecidableEq

/-- A JS error as the worker observes it (classification is by `name`). -/
structure JsError where
  name : String
deriving DecidableEq

/-- The parameters of the store's update-error callback:
`{ error, nextRetry?, retryCount? }`. -/
structure UpdateErrorParams where
  error : JsError
  nextRetry : Option Nat
  retryCount : Option Nat
deriving DecidableEq

/-- jpdict-idb's `UpdateErrorState`, as recorded in `lastUpdateError`:
the error's name plus the retry metadata. -/
structure UpdateErrorState where
  name : String
  nextRetry : Option Nat
  retryCount : Option Nat
deriving DecidableEq

/-- jpdict-idb's `toUpdateErrorState`: packages the error-callback parameters
into an `UpdateErrorState` record. -/
def toUpdateErrorState (params : UpdateErrorParams) : UpdateErrorState :=
  { name := params.error.name
    nextRetry := params.nextRetry
    retryCount := params.retryCount }

/-- One dataset's slice of a published snapshot: `{ state, version }`. -/
structure DatasetSnapshot where
  state : LoadState
  version : Option VersionInfo
deriving DecidableEq

/-- `JpdictState`: the aggregate snapshot posted by `doDbStateNotification`. -/
structure JpdictState where
  words : DatasetSnapshot
  kanji : DatasetSnapshot
  radicals : DatasetSnapshot
  names : DatasetSnapshot
  updateState : UpdateState
  updateError : Option UpdateErrorState
deriving DecidableEq

inductive Severity where
  | warning
deriving DecidableEq

/-- The cycle context captured by the closures `runNextUpdate` /
`onUpdateError` inside one `updateAllSeries` invocation: the request's
`lang` and `forceUpdate` plus the `wasForcedUpdate` local. -/
structure CycleCtx where
  lang : String
  forceUpdate : Bool
  wasForcedUpdate : Bool
deriving DecidableEq

/-- Observable effects, in source order: outbound messages
(`notifyDbStateUpdated`, `notifyDbUpdateComplete`, `notifyError`,
`leaveBreadcrumb`) and calls into the store (`clearCachedVersionInfo`,
`cancelUpdateWithRetry`, `updateWithRetry` — the latter carrying the
cycle context its callbacks close over — and `db.destroy()`). -/
inductive Effect where
  | dbStateUpdated (state : JpdictState)
  | dbUpdateComplete (lastCheck : Option Nat)
  | errorNotification (name : String) (severity : Option Severity)
  | breadcrumb (message : String)
  | clearCachedVersionInfo
  | cancelUpdateWithRetry (series : MajorDataSeries)
  | updateWithRetry (series : MajorDataSeries) (lang : String) (ctx : CycleCtx)
  | destroyStore
deriving DecidableEq

/-- The worker's module-level mutable state: `db` (absent until `initDb`
assigns it), the result of the `dbIsInitialized` promise, `currentUpdate`
and `lastUpdateError`. -/
structure WorkerState where
  db : Option JpdictIdb
  dbInitialized : Bool
  currentUpdate : Option UpdateJob
  lastUpdateError : Option UpdateErrorState
deriving DecidableEq

/-- `doDbStateNotification` (lines 249-295): withholds the snapshot while the
store is absent or any of the four datasets is still `'init'`; otherwise
posts one `notifyDbStateUpdated` whose `updateState` is the store's state for
the live job's series, or `idle` with the latest check time when no job is
live. -/
def doDbStateNotification (st : WorkerState) : List Effect :=
  match st.db with
  | none => []
  | some db =>
    if db.words.state = LoadState.init ∨ db.kanji.state = LoadState.init ∨
        db.radicals.state = LoadState.init ∨ db.names.state = LoadState.init then
      []
    else
      let lastCheck := getLatestCheckTime db
      let updateState :=
        match st.currentUpdate with
        | some j => (db.getMajor j.series).updateState
        | none => UpdateState.idle lastCheck
      [Effect.dbStateUpdated
        { words := { state := db.words.state, version := db.words.version }
          kanji := { state := db.kanji.state, version := db.kanji.version }
          radicals := { state := db.radicals.state, version := db.radicals.version }
          names := { state := db.names.state, version := db.names.version }
          updateState := updateState
          updateError := st.lastUpdateError }]

/-- `cancelUpdate` (lines 240-247): no-op without a live job; otherwise
issues `cancelUpdateWithRetry` for the job's current series and clears the
job slot synchronously. -/
def cancelUpdate (st : WorkerState) : WorkerState × List Effect :=
  match st.currentUpdate with
  | none => (st, [])
  | some j => ({ st with currentUpdate := none }, [Effect.cancelUpdateWithRetry j.series])

/-- Lines 225-234 of `runNextUpdate`: clear the cached version info when the
cycle is forced, then hand the step to `updateWithRetry`. -/
def stepStart (ctx : CycleCtx) (series : MajorDataSeries) : List Effect :=
  (if ctx.forceUpdate || ctx.wasForcedUpdate then [Effect.clearCachedVersionInfo] else []) ++
    [Effect.updateWithRetry series ctx.lang ctx]

/-- The breadcrumb posted when a series finishes updating (line 189-193). -/
def successBreadcrumb (series : MajorDataSeries) : Effect :=
  Effect.breadcrumb ("Successfully updated " ++ series.toStr ++ " database")

/-- `runNextUpdate` (lines 185-235), also the `onUpdateComplete` callback.
On a completion (a job is live) it clears `lastUpdateError`, leaves a
breadcrumb and publishes a snapshot; then it cycles kanji → names → words,
or — after words — clears the job slot and posts `notifyDbUpdateComplete`
with the latest check time.  `none` models the crash of the `db!` non-null
assertion when the store was never assigned. -/
def runNextUpdate (ctx : CycleCtx) (st : WorkerState) : Option (WorkerState × List Effect) :=
  match st.currentUpdate with
  | none =>
    let st1 :=
      { st with
        currentUpdate :=
          some { lang := ctx.lang, series := MajorDataSeries.kanji,
                 forceUpdate := ctx.forceUpdate || ctx.wasForcedUpdate } }
    some (st1, stepStart ctx MajorDataSeries.kanji)
  | some j =>
    let stPre := { st with lastUpdateError := none }
    let pre := successBreadcrumb j.series :: doDbStateNotification stPre
    match j.series with
    | MajorDataSeries.kanji =>
      let st1 := { stPre with currentUpdate := some { j with series := MajorDataSeries.names } }
      some (st1, pre ++ stepStart ctx MajorDataSeries.names)
    | MajorDataSeries.names =>
      let st1 := { stPre with currentUpdate := some { j with series := MajorDataSeries.words } }
      some (st1, pre ++ stepStart ctx MajorDataSeries.words)
    | MajorDataSeries.words =>
      match st.db with
      | none => none
      | some d =>
        some ({ stPre with currentUpdate := none },
          pre ++ [Effect.dbUpdateComplete (getLatestCheckTime d)])

/-- `onUpdateError` (lines 150-183), instantiated at a series: breadcrumb plus
threshold warning when a retry is scheduled; otherwise a full error
notification unless the error is an `AbortError` or `OfflineError` (then a
breadcrumb only); in every case the error is recorded and a snapshot
publication attempted.  `now` stands for `Date.now()`. -/
def retryingBreadcrumb (name : String) (series : DataSeries) (diffInMs : Int) : Effect :=
  Effect.breadcrumb
    ("Encountered " ++ name ++ " error updating " ++ series.toStr ++
      " database. Retrying in " ++ toString diffInMs ++ "ms.")

def terminalBreadcrumb (name : String) (series : DataSeries) : Effect :=
  Effect.breadcrumb
    ("Database update for " ++ series.toStr ++ " database encountered " ++ name ++ " error")

def onUpdateError (series : DataSeries) (now : Nat) (params : UpdateErrorParams)
    (st : WorkerState) : WorkerState × List Effect :=
  let notifyEffects :=
    match params.nextRetry with
    | some nextRetry =>
      let diffInMs : Int := (nextRetry : Int) - (now : Int)
      retryingBreadcrumb params.error.name series diffInMs
        :: (if params.retryCount = some 5 then
              [Effect.errorNotification params.error.name (some Severity.warning)]
            else [])
    | none =>
      if params.error.name ≠ "AbortError" ∧ params.error.name ≠ "OfflineError" then
        [Effect.errorNotification params.error.name none]
      else
        [terminalBreadcrumb params.error.name series]
  let st1 := { st with lastUpdateError := some (toUpdateErrorState params) }
  (st1, notifyEffects ++ doDbStateNotification st1)

/-- `updateAllSeries` (lines 120-238): dropped while the store is not
initialized; a running job for the same language that is forced, or
superseded by a non-forced request, makes the call a no-op; otherwise the
running job is cancelled, its forced flag remembered, and a fresh cycle is
started by the first `runNextUpdate` call. -/
def updateAllSeries (st : WorkerState) (lang : String) (forceUpdate : Bool) :
    Option (WorkerState × List Effect) :=
  if st.dbInitialized = false then some (st, [])
  else
    match st.currentUpdate with
    | some j =>
      if j.lang = lang ∧ (j.forceUpdate = true ∨ forceUpdate = false) then some (st, [])
      else
        let wasForcedUpdate := j.forceUpdate
        let c := cancelUpdate st
        let st2 := { c.1 with currentUpdate := none }
        let ctx : CycleCtx :=
          { lang := lang, forceUpdate := forceUpdate, wasForcedUpdate := wasForcedUpdate }
        match runNextUpdate ctx st2 with
        | none => none
        | some r => some (r.1, c.2 ++ r.2)
    | none =>
      runNextUpdate { lang := lang, forceUpdate := forceUpdate, wasForcedUpdate := false } st

/-- The inbound message union (`JpdictWorkerMessage`). -/
inductive WorkerMessage where
  | querystate
  | update (lang : String) (force : Bool)
  | cancelupdate
  | delete
deriving DecidableEq

/-- The `self.onmessage` dispatcher (lines 26-65).  A crash of
`updateAllSeries` (the `none` case) is caught and posted as an error
notification, matching the `try`/`catch` around it. -/
def handleMessage (st : WorkerState) : WorkerMessage → WorkerState × List Effect
  | WorkerMessage.querystate =>
    (st, if st.dbInitialized then doDbStateNotification st else [])
  | WorkerMessage.update lang force =>
    match updateAllSeries st lang force with
    | some r => r
    | none => (st, [Effect.errorNotification "TypeError" none])
  | WorkerMessage.cancelupdate => cancelUpdate st
  | WorkerMessage.delete =>
    (st, if st.db.isSome then [Effect.destroyStore] else [])

/-- Sequential processing of a list of inbound messages. -/
def runMessages (st : WorkerState) : List WorkerMessage → WorkerState × List Effect
  | [] => (st, [])
  | m :: ms =>
    let r1 := handleMessage st m
    let r2 := runMessages r1.1 ms
    (r2.1, r1.2 ++ r2.2)

/-- Effects of the `initDb` open loop: destroying the previous instance,
one open attempt (`new JpdictIdb` + awaiting `ready`), and the
`requestIdleCallbackPromise({ timeout: 1000 })` backoff wait. -/
inductive InitEffect where
  | destroyPrevious
  | attemptOpen
  | idleWait (timeout : Nat)
deriving DecidableEq

/-- The body of `initDb`'s `while (true)` loop (lines 79-107), driven by
`outcome i` — whether the i-th open attempt succeeds.  `retriesLeft` is
`3 - retryCount`; when an attempt fails with none left the loop gives up. -/
def initDbGo (outcome : Nat → Bool) : Nat → Bool → Nat → Bool × List InitEffect
  | attempt, hasPrev, retriesLeft =>
    let effs :=
      (if hasPrev then [InitEffect.destroyPrevious] else []) ++ [InitEffect.attemptOpen]
    if outcome attempt then (true, effs)
    else
      match retriesLeft with
      | 0 => (false, effs)
      | n + 1 =>
        let rest := initDbGo outcome (attempt + 1) true n
        (rest.1, effs ++ [InitEffect.idleWait 1000] ++ rest.2)

/-- `initDb` (lines 77-108): up to 3 retries after the first attempt
(`retryCount >= 3` gives up), i.e. at most 4 attempts overall. -/
def initDb (outcome : Nat → Bool) : Bool × List InitEffect :=
  initDbGo outcome 0 false 3

/-- `dbIsInitialized` (lines 73-75): `initDb().then(() => true).catch(() => false)`. -/
def dbIsInitialized (outcome : Nat → Bool) : Bool :=
  (initDb outcome).1

/-! ### Observation helpers over effect traces -/

def updateCompleteCount (effs : List Effect) : Nat :=
  effs.countP fun e => match e with | Effect.dbUpdateComplete _ => true | _ => false

/-- Number of warning-severity error notifications in a trace. -/
def warningCount (effs : List Effect) : Nat :=
  effs.countP fun e =>
    match e with | Effect.errorNotification _ (some Severity.warning) => true | _ => false

/-- Number of default-severity (full) error notifications in a trace. -/
def fullErrorCount (effs : List Effect) : Nat :=
  effs.countP fun e => match e with | Effect.errorNotification _ none => true | _ => false

def breadcrumbCount (effs : List Effect) : Nat :=
  effs.countP fun e => match e with | Effect.breadcrumb _ => true | _ => false

def attemptCount (effs : List InitEffect) : Nat :=
  effs.countP fun e => match e with | InitEffect.attemptOpen => true | _ => false

/-- Shape of the tail of an `initDb` effect trace: every attempt after the
first is preceded by the idle backoff wait (timeout 1000) and the destruction
of the previously opened instance. -/
def backoffShape : List InitEffect → Bool
  | [] => true
  | InitEffect.idleWait 1000 :: InitEffect.destroyPrevious :: InitEffect.attemptOpen :: rest =>
    backoffShape rest
  | _ => false

def initTraceShape (effs : List InitEffect) : Bool :=
  match effs with
  | InitEffect.attemptOpen :: rest => backoffShape rest
  | _ => false

/-- The `initDb` effect trace when every open attempt fails. -/
def allFailInitTrace : List InitEffect :=
  [InitEffect.attemptOpen, InitEffect.idleWait 1000, InitEffect.destroyPrevious,
   InitEffect.attemptOpen, InitEffect.idleWait 1000, InitEffect.destroyPrevious,
   InitEffect.attemptOpen, InitEffect.idleWait 1000, InitEffect.destroyPrevious,
   InitEffect.attemptOpen]

/-- Following the spec's words (for comparison with `getLatestCheckTime`,
which the source computes over `allMajorDataSeries` only): the "max
`lastCheck` across all four datasets", radicals included. -/
def getLatestCheckTimeSpecFourDatasets (db : JpdictIdb) : Option Nat :=
  let m :=
    ([db.words, db.kanji, db.radicals, db.names].map fun r =>
      dateValue r.updateState.lastCheck).foldl max 0
  if m = 0 then none else some m

/-! ### The UI presenter's badge derivation (`src/background/browser-action.ts`) -/

/-- The words dataset's fallback (flat-file) load state, from
`JpdictStateWithFallback`; the badge section does not read it. -/
inductive FallbackLoadState where
  | unloaded
  | loading
  | ok
  | notOk
deriving DecidableEq

structure WordsDatasetWithFallback where
  state : LoadState
  version : Option VersionInfo
  fallbackState : FallbackLoadState
deriving DecidableEq

/-- `JpdictStateWithFallback` as consumed by `updateBrowserAction`. -/
structure JpdictStateWithFallback where
  words : WordsDatasetWithFallback
  kanji : DatasetSnapshot
  radicals : DatasetSnapshot
  names : DatasetSnapshot
  updateState : UpdateState
  updateError : Option UpdateErrorState
deriving DecidableEq

/-- `jpdictState[series].state` for a major series. -/
def JpdictStateWithFallback.seriesState (s : JpdictStateWithFallback) :
    MajorDataSeries → LoadState
  | MajorDataSeries.words => s.words.state
  | MajorDataSeries.kanji => s.kanji.state
  | MajorDataSeries.names => s.names.state

/-- The badge-determination section of `updateBrowserAction`
(browser-action.ts lines 113-138): the text passed to `setBadgeText` — `"!"`
when some major dataset is not `'ok'` and the recorded update error is
neither an `AbortError` nor a `QuotaExceededError`, `""` otherwise. -/
def updateBrowserActionBadge (jpdictState : JpdictStateWithFallback) : String :=
  let hasNotOkDatabase :=
    allMajorDataSeries.any fun series =>
      decide (jpdictState.seriesState series ≠ LoadState.ok)
  match jpdictState.updateError with
  | some e =>
    if hasNotOkDatabase = true ∧ e.name ≠ "AbortError" ∧ e.name ≠ "QuotaExceededError" then
      "!"
    else ""
  | none => ""

/-! ### Concrete stores and states used by witnesses and counterexamples -/

/-- A dataset record that is loaded and idle with the given last check time. -/
def okIdle (lastCheck : Option Nat) : DataSeriesInfo :=
  { state := LoadState.ok, version := none, updateState := UpdateState.idle lastCheck }

/-- A fully resolved store: major-series check times 3, 7 and 2. -/
def dbReady : JpdictIdb :=
  { words := okIdle (some 3), kanji := okIdle (some 7), radicals := okIdle none,
    names := okIdle (some 2) }

/-- An idle, initialized worker. -/
def stIdle : WorkerState :=
  { db := some dbReady, dbInitialized := true, currentUpdate := none, lastUpdateError := none }

/-- A non-forced running job for language "en". -/
def jobEn : UpdateJob :=
  { lang := "en", series := MajorDataSeries.kanji, forceUpdate := false }

def stRunning : WorkerState :=
  { db := some dbReady, dbInitialized := true, currentUpdate := some jobEn,
    lastUpdateError := none }

/-- A forced running job for language "fr", already advanced to the words step. -/
def jobForcedFr : UpdateJob :=
  { lang := "fr", series := MajorDataSeries.words, forceUpdate := true }

def stForcedFr : WorkerState :=
  { db := some dbReady, dbInitialized := true, currentUpdate := some jobForcedFr,
    lastUpdateError := none }

/-- A worker whose store never opened. -/
def stNoDb : WorkerState :=
  { db := none, dbInitialized := false, currentUpdate := none, lastUpdateError := none }

/-- A dataset record still in its `'init'` load state. -/
def initIdle : DataSeriesInfo :=
  { state := LoadState.init, version := none, updateState := UpdateState.idle none }

/-- A store still resolving its words dataset. -/
def dbStillInit : JpdictIdb :=
  { dbReady with words := initIdle }

def stStillInit : WorkerState :=
  { db := some dbStillInit, dbInitialized := true, currentUpdate := none,
    lastUpdateError := none }

/-- C8's counterexample store: only the radicals dataset has ever been
checked (`lastCheck = 5`); every major series reports `null`. -/
def c8Db : JpdictIdb :=
  { words := okIdle none, kanji := okIdle none, radicals := okIdle (some 5),
    names := okIdle none }

def c8State : WorkerState :=
  { db := some c8Db, dbInitialized := true, currentUpdate := none, lastUpdateError := none }

/-- The snapshot the worker publishes from `c8State`. -/
def c8Snapshot : JpdictState :=
  { words := { state := LoadState.ok, version := none }
    kanji := { state := LoadState.ok, version := none }
    radicals := { state := LoadState.ok, version := none }
    names := { state := LoadState.ok, version := none }
    updateState := UpdateState.idle none
    updateError := none }

def uiWordsBroken : WordsDatasetWithFallback :=
  { state := LoadState.unavailable, version := none,
    fallbackState := FallbackLoadState.unloaded }

def uiWordsOk : WordsDatasetWithFallback :=
  { state := LoadState.ok, version := none, fallbackState := FallbackLoadState.unloaded }

def uiDownloadError : UpdateErrorState :=
  { name := "DownloadError", nextRetry := none, retryCount := none }

/-- Presenter state: words dataset broken, a download error recorded. -/
def uiBroken : JpdictStateWithFallback :=
  { words := uiWordsBroken
    kanji := { state := LoadState.ok, version := none }
    radicals := { state := LoadState.ok, version := none }
    names := { state := LoadState.ok, version := none }
    updateState := UpdateState.idle none
    updateError := some uiDownloadError }

/-- Presenter state: every major dataset ok, the same error still recorded. -/
def uiAllOk : JpdictStateWithFallback :=
  { uiBroken with words := uiWordsOk }

/-! ### Helper lemmas -/

theorem doDbStateNotification_shape (st : WorkerState) :
    doDbStateNotification st = [] ∨
      ∃ s, doDbStateNotification st = [Effect.dbStateUpdated s] := by
  unfold doDbStateNotification
  cases hdb : st.db with
  | none => exact Or.inl rfl
  | some d =>
    dsimp only
    split
    · exact Or.inl rfl
    · exact Or.inr ⟨_, rfl⟩

theorem mem_doDbStateNotification (st : WorkerState) (e : Effect)
    (h : e ∈ doDbStateNotification st) : ∃ s, e = Effect.dbStateUpdated s := by
  rcases doDbStateNotification_shape st with hs | ⟨s, hs⟩
  · rw [hs] at h; cases h
  · rw [hs] at h
    simp only [List.mem_singleton] at h
    exact ⟨s, h⟩

theorem updateCompleteCount_append (l1 l2 : List Effect) :
    updateCompleteCount (l1 ++ l2) = updateCompleteCount l1 + updateCompleteCount l2 :=
  List.countP_append _ _ _

theorem updateCompleteCount_doDbStateNotification (st : WorkerState) :
    updateCompleteCount (doDbStateNotification st) = 0 := by
  rcases doDbStateNotification_shape st with hs | ⟨s, hs⟩ <;>
    simp [hs, updateCompleteCount]

theorem updateCompleteCount_stepStart (ctx : CycleCtx) (s : MajorDataSeries) :
    updateCompleteCount (stepStart ctx s) = 0 := by
  unfold stepStart
  split <;> simp [updateCompleteCount]

theorem updateWithRetry_mem_stepStart (ctx : CycleCtx) (s : MajorDataSeries) :
    Effect.updateWithRetry s ctx.lang ctx ∈ stepStart ctx s := by
  unfold stepStart
  split <;> simp

theorem runNextUpdate_fresh (ctx : CycleCtx) (st : WorkerState)
    (h : st.currentUpdate = none) :
    runNextUpdate ctx st =
      some ({ st with currentUpdate := some (UpdateJob.mk ctx.lang MajorDataSeries.kanji
          (ctx.forceUpdate || ctx.wasForcedUpdate)) },
        stepStart ctx MajorDataSeries.kanji) := by
  unfold runNextUpdate
  rw [h]

theorem runNextUpdate_kanji (ctx : CycleCtx) (st : WorkerState) (l : String) (f : Bool)
    (h : st.currentUpdate = some (UpdateJob.mk l MajorDataSeries.kanji f)) :
    runNextUpdate ctx st =
      some ({ st with lastUpdateError := none
                      currentUpdate := some (UpdateJob.mk l MajorDataSeries.names f) },
        (successBreadcrumb MajorDataSeries.kanji
            :: doDbStateNotification { st with lastUpdateError := none })
          ++ stepStart ctx MajorDataSeries.names) := by
  unfold runNextUpdate
  rw [h]

theorem runNextUpdate_names (ctx : CycleCtx) (st : WorkerState) (l : String) (f : Bool)
    (h : st.currentUpdate = some (UpdateJob.mk l MajorDataSeries.names f)) :
    runNextUpdate ctx st =
      some ({ st with lastUpdateError := none
                      currentUpdate := some (UpdateJob.mk l MajorDataSeries.words f) },
        (successBreadcrumb MajorDataSeries.names
            :: doDbStateNotification { st with lastUpdateError := none })
          ++ stepStart ctx MajorDataSeries.words) := by
  unfold runNextUpdate
  rw [h]

theorem runNextUpdate_words (ctx : CycleCtx) (st : WorkerState) (l : String) (f : Bool)
    (d : JpdictIdb) (h : st.currentUpdate = some (UpdateJob.mk l MajorDataSeries.words f))
    (hdb : st.db = some d) :
    runNextUpdate ctx st =
      some ({ st with lastUpdateError := none, currentUpdate := none },
        (successBreadcrumb MajorDataSeries.words
            :: doDbStateNotification { st with lastUpdateError := none })
          ++ [Effect.dbUpdateComplete (getLatestCheckTime d)]) := by
  unfold runNextUpdate
  rw [h, hdb]

/-! ### The claims -/

/-- C2: a `requestUpdate` while a job is live for the same language, with the
running job forced or the new request not forced, is a no-op: same state
(job slot, forced flag, series untouched), no effects (no cancellation, no
new cycle). -/
theorem updateAllSeries_dedup_noop (st : WorkerState) (j : UpdateJob) (lang : String)
    (force : Bool) (hjob : st.currentUpdate = some j) (hlang : j.lang = lang)
    (hforce : j.forceUpdate = true ∨ force = false) :
    updateAllSeries st lang force = some (st, []) := by
  unfold updateAllSeries
  by_cases hinit : st.dbInitialized = false
  · rw [if_pos hinit]
  · rw [if_neg hinit, hjob]
    dsimp only
    rw [if_pos ⟨hlang, hforce⟩]

/-- C2 witness: a repeated non-forced "en" request against the running
non-forced "en" job changes nothing and emits nothing. -/
theorem updateAllSeries_dedup_noop_witness :
    updateAllSeries stRunning "en" false = some (stRunning, []) :=
  updateAllSeries_dedup_noop stRunning jobEn "en" false rfl rfl (Or.inr rfl)

theorem doDbStateNotification_idle_phase (st : WorkerState) (d : JpdictIdb)
    (hdb : st.db = some d) (hcu : st.currentUpdate = none) (s : JpdictState)
    (hs : Effect.dbStateUpdated s ∈ doDbStateNotification st) :
    s.updateState = UpdateState.idle (getLatestCheckTime d) := by
  unfold doDbStateNotification at hs
  rw [hdb, hcu] at hs
  dsimp only at hs
  split at hs
  · cases hs
  · simp only [List.mem_singleton, Effect.dbStateUpdated.injEq] at hs
    rw [hs]

theorem doDbStateNotification_running_phase (st : WorkerState) (d : JpdictIdb)
    (j : UpdateJob) (hdb : st.db = some d) (hcu : st.currentUpdate = some j)
    (s : JpdictState) (hs : Effect.dbStateUpdated s ∈ doDbStateNotification st) :
    s.updateState = (d.getMajor j.series).updateState := by
  unfold doDbStateNotification at hs
  rw [hdb, hcu] at hs
  dsimp only at hs
  split at hs
  · cases hs
  · simp only [List.mem_singleton, Effect.dbStateUpdated.injEq] at hs
    rw [hs]

theorem doDbStateNotification_publishes (st : WorkerState) (d : JpdictIdb)
    (hdb : st.db = some d)
    (hres : ¬(d.words.state = LoadState.init ∨ d.kanji.state = LoadState.init ∨
      d.radicals.state = LoadState.init ∨ d.names.state = LoadState.init)) :
    ∃ s, doDbStateNotification st = [Effect.dbStateUpdated s] := by
  unfold doDbStateNotification
  rw [hdb]
  dsimp only
  rw [if_neg hres]
  exact ⟨_, rfl⟩

/-- C4: `cancelUpdate` is a no-op without a live job; with one it issues a
store cancel for the job's current series and then clears the job slot
synchronously, so any snapshot computed after it returns (e.g. for an
immediately following `querystate`) reports the idle phase rather than any
state of the cancelled job. -/
theorem cancelUpdate_prompt (st : WorkerState) :
    (st.currentUpdate = none → cancelUpdate st = (st, [])) ∧
    (∀ j, st.currentUpdate = some j →
      cancelUpdate st =
        ({ st with currentUpdate := none }, [Effect.cancelUpdateWithRetry j.series]) ∧
      (cancelUpdate st).1.currentUpdate = none ∧
      (∀ d, st.db = some d → ∀ s,
        Effect.dbStateUpdated s ∈
          (handleMessage (cancelUpdate st).1 WorkerMessage.querystate).2 →
        s.updateState = UpdateState.idle (getLatestCheckTime d))) := by
  constructor
  · intro h
    unfold cancelUpdate
    rw [h]
  · intro j hj
    have hc : cancelUpdate st =
        ({ st with currentUpdate := none }, [Effect.cancelUpdateWithRetry j.series]) := by
      unfold cancelUpdate
      rw [hj]
    refine ⟨hc, by rw [hc], ?_⟩
    intro d hd s hs
    rw [hc] at hs
    dsimp only [handleMessage] at hs
    split at hs
    · exact doDbStateNotification_idle_phase { st with currentUpdate := none } d hd rfl s hs
    · cases hs

/-- C4 witness: cancelling the running "en" job issues one store cancel for
its series, empties the job slot, and the snapshot a `querystate` computes
right after reports the idle phase with `dbReady`'s latest check time. -/
theorem cancelUpdate_prompt_witness :
    cancelUpdate stRunning =
      ({ stRunning with currentUpdate := none },
        [Effect.cancelUpdateWithRetry MajorDataSeries.kanji]) ∧
    (cancelUpdate stRunning).1.currentUpdate = none := by
  have h := (cancelUpdate_prompt stRunning).2 jobEn rfl
  exact ⟨h.1, h.2.1⟩

/-- C5: no snapshot is published while the store is absent or any of the
four datasets is uninitialized; every published snapshot has all four load
states resolved. -/
theorem snapshot_withheld_while_uninitialized (st : WorkerState) :
    (st.db = none → doDbStateNotification st = []) ∧
    (∀ d, st.db = some d →
      (d.words.state = LoadState.init ∨ d.kanji.state = LoadState.init ∨
        d.radicals.state = LoadState.init ∨ d.names.state = LoadState.init) →
      doDbStateNotification st = []) ∧
    (∀ s, Effect.dbStateUpdated s ∈ doDbStateNotification st →
      s.words.state ≠ LoadState.init ∧ s.kanji.state ≠ LoadState.init ∧
      s.radicals.state ≠ LoadState.init ∧ s.names.state ≠ LoadState.init) := by
  refine ⟨?_, ?_, ?_⟩
  · intro h
    unfold doDbStateNotification
    rw [h]
  · intro d hd hinit
    unfold doDbStateNotification
    rw [hd]
    dsimp only
    rw [if_pos hinit]
  · intro s hs
    unfold doDbStateNotification at hs
    cases hdb : st.db with
    | none => rw [hdb] at hs; cases hs
    | some d =>
      rw [hdb] at hs
      dsimp only at hs
      split at hs
      · cases hs
      case isFalse hres =>
        simp only [List.mem_singleton, Effect.dbStateUpdated.injEq] at hs
        push_neg at hres
        rw [hs]
        exact ⟨hres.1, hres.2.1, hres.2.2.1, hres.2.2.2⟩

/-- C5 witness: with the words dataset still `'init'` (state `stStillInit`)
nothing is published, and with no store at all nothing is published. -/
theorem snapshot_withheld_while_uninitialized_witness :
    doDbStateNotification stStillInit = [] ∧ doDbStateNotification stNoDb = [] :=
  ⟨(snapshot_withheld_while_uninitialized stStillInit).2.1 dbStillInit rfl
      (Or.inl (by decide)),
    (snapshot_withheld_while_uninitialized stNoDb).1 rfl⟩

theorem warningCount_doDbStateNotification (st : WorkerState) :
    warningCount (doDbStateNotification st) = 0 := by
  rcases doDbStateNotification_shape st with hs | ⟨s, hs⟩ <;> simp [hs, warningCount]

theorem fullErrorCount_doDbStateNotification (st : WorkerState) :
    fullErrorCount (doDbStateNotification st) = 0 := by
  rcases doDbStateNotification_shape st with hs | ⟨s, hs⟩ <;> simp [hs, fullErrorCount]

theorem breadcrumbCount_doDbStateNotification (st : WorkerState) :
    breadcrumbCount (doDbStateNotification st) = 0 := by
  rcases doDbStateNotification_shape st with hs | ⟨s, hs⟩ <;> simp [hs, breadcrumbCount]

theorem errorNotification_not_mem_doDbStateNotification (st : WorkerState)
    (n : String) (sev : Option Severity) :
    Effect.errorNotification n sev ∉ doDbStateNotification st := by
  intro h
  rcases mem_doDbStateNotification st _ h with ⟨s, hs⟩
  cases hs

/-- C6: an error callback carrying a `nextRetryAt` always leaves a
breadcrumb, and emits a warning-severity error notification exactly when the
reported `retryCount` equals the threshold 5 — so each retry sequence yields
at most one warning, at its fifth retry. -/
theorem retry_warning_exactly_at_threshold (series : DataSeries) (now : Nat)
    (params : UpdateErrorParams) (st : WorkerState) (nr : Nat)
    (hr : params.nextRetry = some nr) :
    (∃ m, Effect.breadcrumb m ∈ (onUpdateError series now params st).2) ∧
    warningCount (onUpdateError series now params st).2 =
      (if params.retryCount = some 5 then 1 else 0) ∧
    ((∃ n sev, Effect.errorNotification n sev ∈ (onUpdateError series now params st).2) ↔
      params.retryCount = some 5) := by
  unfold onUpdateError
  rw [hr]
  dsimp only
  set st1 : WorkerState := { st with lastUpdateError := some (toUpdateErrorState params) }
  refine ⟨⟨_, List.mem_cons_self _ _⟩, ?_, ?_⟩
  · by_cases hc : params.retryCount = some 5
    · rw [if_pos hc, if_pos hc]
      show warningCount (retryingBreadcrumb _ _ _
        :: ([Effect.errorNotification params.error.name (some Severity.warning)]
          ++ doDbStateNotification st1)) = 1
      simp only [warningCount, retryingBreadcrumb, List.countP_cons, List.countP_append]
      have h0 : (doDbStateNotification st1).countP (fun e =>
          match e with
          | Effect.errorNotification _ (some Severity.warning) => true
          | _ => false) = 0 := warningCount_doDbStateNotification st1
      simp [h0]
    · rw [if_neg hc, if_neg hc]
      show warningCount (retryingBreadcrumb _ _ _
        :: ([] ++ doDbStateNotification st1)) = 0
      simpa [warningCount, retryingBreadcrumb] using warningCount_doDbStateNotification st1
  · constructor
    · rintro ⟨n, sev, hmem⟩
      by_contra hc
      rw [if_neg hc] at hmem
      rcases List.mem_cons.mp hmem with h | h
      · simp [retryingBreadcrumb] at h
      · exact errorNotification_not_mem_doDbStateNotification st1 n sev (by simpa using h)
    · intro hc
      rw [if_pos hc]
      exact ⟨params.error.name, some Severity.warning,
        List.mem_cons_of_mem _ (List.mem_append_left _ (List.mem_cons_self _ _))⟩

/-- C6 witness: at retry counts 4, 5 and 6 of a download-error retry
sequence the warning counts are 0, 1 and 0, and a breadcrumb is always
left. -/
theorem retry_warning_exactly_at_threshold_witness :
    warningCount (onUpdateError DataSeries.kanji 100
        { error := { name := "DownloadError" }, nextRetry := some 500, retryCount := some 4 }
        stRunning).2 = 0 ∧
    warningCount (onUpdateError DataSeries.kanji 100
        { error := { name := "DownloadError" }, nextRetry := some 500, retryCount := some 5 }
        stRunning).2 = 1 ∧
    warningCount (onUpdateError DataSeries.kanji 100
        { error := { name := "DownloadError" }, nextRetry := some 500, retryCount := some 6 }
        stRunning).2 = 0 ∧
    (∃ m, Effect.breadcrumb m ∈ (onUpdateError DataSeries.kanji 100
        { error := { name := "DownloadError" }, nextRetry := some 500, retryCount := some 5 }
        stRunning).2) := by
  refine ⟨?_, ?_, ?_, ?_⟩
  · exact (retry_warning_exactly_at_threshold DataSeries.kanji 100 _ stRunning 500
      rfl).2.1.trans (by decide)
  · exact (retry_warning_exactly_at_threshold DataSeries.kanji 100 _ stRunning 500
      rfl).2.1.trans (by decide)
  · exact (retry_warning_exactly_at_threshold DataSeries.kanji 100 _ stRunning 500
      rfl).2.1.trans (by decide)
  · exact (retry_warning_exactly_at_threshold DataSeries.kanji 100 _ stRunning 500
      rfl).1

/-- C7: an error callback with no `nextRetryAt` emits a full default-severity
error notification unless the error is cancellation-class (`AbortError`) or
connectivity-class (`OfflineError`), which produce only a breadcrumb; in all
cases the error is recorded as the last update error and a fresh snapshot
publication is attempted. -/
theorem terminal_error_classification (series : DataSeries) (now : Nat)
    (params : UpdateErrorParams) (st : WorkerState) (hr : params.nextRetry = none) :
    (params.error.name ≠ "AbortError" → params.error.name ≠ "OfflineError" →
      Effect.errorNotification params.error.name none ∈ (onUpdateError series now params st).2 ∧
      breadcrumbCount (onUpdateError series now params st).2 = 0) ∧
    (params.error.name = "AbortError" ∨ params.error.name = "OfflineError" →
      (∃ m, Effect.breadcrumb m ∈ (onUpdateError series now params st).2) ∧
      fullErrorCount (onUpdateError series now params st).2 = 0 ∧
      warningCount (onUpdateError series now params st).2 = 0) ∧
    (onUpdateError series now params st).1.lastUpdateError =
      some (toUpdateErrorState params) ∧
    (∃ cls, (onUpdateError series now params st).2 =
      cls ++ doDbStateNotification (onUpdateError series now params st).1) := by
  unfold onUpdateError
  rw [hr]
  dsimp only
  set st1 : WorkerState := { st with lastUpdateError := some (toUpdateErrorState params) }
  refine ⟨?_, ?_, rfl, ?_⟩
  · intro h1 h2
    rw [if_pos ⟨h1, h2⟩]
    constructor
    · exact List.mem_append_left _ (List.mem_cons_self _ _)
    · simpa [breadcrumbCount] using breadcrumbCount_doDbStateNotification st1
  · intro hname
    have hcond : ¬(params.error.name ≠ "AbortError" ∧ params.error.name ≠ "OfflineError") := by
      rcases hname with h | h <;> simp [h]
    rw [if_neg hcond]
    refine ⟨⟨_, List.mem_append_left _ (by exact List.mem_cons_self _ _)⟩, ?_, ?_⟩
    · simpa [fullErrorCount, terminalBreadcrumb] using fullErrorCount_doDbStateNotification st1
    · simpa [warningCount, terminalBreadcrumb] using warningCount_doDbStateNotification st1
  · exact ⟨_, rfl⟩

/-- C7 witness: at a concrete state, an exhausted `AbortError` leaves only a
breadcrumb while an exhausted `DownloadError` is emitted as a full error
notification; both are recorded as the last update error. -/
theorem terminal_error_classification_witness :
    fullErrorCount (onUpdateError DataSeries.kanji 100
      { error := { name := "AbortError" }, nextRetry := none, retryCount := none }
      stRunning).2 = 0 ∧
    Effect.errorNotification "DownloadError" none ∈ (onUpdateError DataSeries.kanji 100
      { error := { name := "DownloadError" }, nextRetry := none, retryCount := none }
      stRunning).2 ∧
    (onUpdateError DataSeries.kanji 100
      { error := { name := "AbortError" }, nextRetry := none, retryCount := none }
      stRunning).1.lastUpdateError =
      some { name := "AbortError", nextRetry := none, retryCount := none } := by
  refine ⟨?_, ?_, ?_⟩
  · exact ((terminal_error_classification DataSeries.kanji 100 _ stRunning rfl).2.1
      (Or.inl rfl)).2.1
  · exact ((terminal_error_classification DataSeries.kanji 100 _ stRunning rfl).1
      (by decide) (by decide)).1
  · exact (terminal_error_classification DataSeries.kanji 100 _ stRunning rfl).2.2.1

/-- C10: the '!' badge is set exactly when some major dataset (words, kanji,
names) is not `'ok'` and the recorded update error is neither an
`AbortError` nor a `QuotaExceededError`; when every major dataset is
`'ok'` the badge text is cleared even if an update error is recorded. -/
theorem badge_only_when_major_dataset_not_ok (s : JpdictStateWithFallback) :
    (updateBrowserActionBadge s = "!" ↔
      ((∃ ms, ms ∈ allMajorDataSeries ∧ s.seriesState ms ≠ LoadState.ok) ∧
        ∃ e, s.updateError = some e ∧ e.name ≠ "AbortError" ∧
          e.name ≠ "QuotaExceededError")) ∧
    ((∀ ms, ms ∈ allMajorDataSeries → s.seriesState ms = LoadState.ok) →
      updateBrowserActionBadge s = "") := by
  constructor
  · constructor
    · intro hb
      unfold updateBrowserActionBadge at hb
      cases he : s.updateError with
      | none =>
        rw [he] at hb
        dsimp only at hb
        exact absurd hb (by decide)
      | some e =>
        rw [he] at hb
        dsimp only at hb
        by_cases hc : (allMajorDataSeries.any fun series =>
            decide (s.seriesState series ≠ LoadState.ok)) = true ∧
            e.name ≠ "AbortError" ∧ e.name ≠ "QuotaExceededError"
        · refine ⟨?_, e, rfl, hc.2.1, hc.2.2⟩
          rcases List.any_eq_true.mp hc.1 with ⟨ms, hms, hok⟩
          exact ⟨ms, hms, of_decide_eq_true hok⟩
        · rw [if_neg hc] at hb
          exact absurd hb (by decide)
    · rintro ⟨⟨ms, hms, hok⟩, e, he, h1, h2⟩
      unfold updateBrowserActionBadge
      rw [he]
      dsimp only
      have hcond : (allMajorDataSeries.any fun series =>
          decide (s.seriesState series ≠ LoadState.ok)) = true :=
        List.any_eq_true.mpr ⟨ms, hms, decide_eq_true hok⟩
      rw [if_pos ⟨hcond, h1, h2⟩]
  · intro hall
    unfold updateBrowserActionBadge
    have hfalse : (allMajorDataSeries.any fun series =>
        decide (s.seriesState series ≠ LoadState.ok)) = false := by
      rw [List.any_eq_false]
      intro ms hms
      simp [hall ms hms]
    cases he : s.updateError with
    | none => rfl
    | some e =>
      dsimp only
      rw [if_neg]
      rintro ⟨hc, _⟩
      rw [hfalse] at hc
      cases hc

/-- C10 witness: with the words dataset unavailable and a recorded
`DownloadError` the badge shows '!', and with every major dataset ok — same
error still recorded — it is cleared. -/
theorem badge_only_when_major_dataset_not_ok_witness :
    updateBrowserActionBadge uiBroken = "!" ∧ updateBrowserActionBadge uiAllOk = "" :=
  ⟨(badge_only_when_major_dataset_not_ok uiBroken).1.mpr
      ⟨⟨MajorDataSeries.words, by decide, by decide⟩,
        uiDownloadError, rfl, by decide, by decide⟩,
    (badge_only_when_major_dataset_not_ok uiAllOk).2 (by decide)⟩

/-- C8 (amended): once the store has resolved, a published snapshot's phase
is the store's update state for the live job's series, or — with no live
job — `idle` carrying `getLatestCheckTime`, the maximum `lastCheck` across
the three major datasets (words, kanji, names), `None` when none of those
has a check time. -/
theorem snapshot_phase_from_job_or_idle (st : WorkerState) (d : JpdictIdb)
    (hdb : st.db = some d)
    (hres : ¬(d.words.state = LoadState.init ∨ d.kanji.state = LoadState.init ∨
      d.radicals.state = LoadState.init ∨ d.names.state = LoadState.init)) :
    (∃ s, doDbStateNotification st = [Effect.dbStateUpdated s]) ∧
    (st.currentUpdate = none →
      ∀ s, Effect.dbStateUpdated s ∈ doDbStateNotification st →
        s.updateState = UpdateState.idle (getLatestCheckTime d)) ∧
    (∀ j, st.currentUpdate = some j →
      ∀ s, Effect.dbStateUpdated s ∈ doDbStateNotification st →
        s.updateState = (d.getMajor j.series).updateState) ∧
    ((∀ ms, ms ∈ allMajorDataSeries → (d.getMajor ms).updateState.lastCheck = none) →
      getLatestCheckTime d = none) := by
  refine ⟨doDbStateNotification_publishes st d hdb hres, ?_, ?_, ?_⟩
  · intro hcu s hs
    exact doDbStateNotification_idle_phase st d hdb hcu s hs
  · intro j hcu s hs
    exact doDbStateNotification_running_phase st d j hdb hcu s hs
  · intro hall
    have hw := hall MajorDataSeries.words (by decide)
    have hk := hall MajorDataSeries.kanji (by decide)
    have hn := hall MajorDataSeries.names (by decide)
    simp [getLatestCheckTime, allMajorDataSeries, hw, hk, hn, dateValue]

/-- C8 witness: at the idle, resolved state `stIdle` a snapshot is published
and its phase is `idle (some 7)` — the largest of the major-series check
times 3, 7 and 2. -/
theorem snapshot_phase_from_job_or_idle_witness :
    (∃ s, doDbStateNotification stIdle = [Effect.dbStateUpdated s]) ∧
    (∀ s, Effect.dbStateUpdated s ∈ doDbStateNotification stIdle →
      s.updateState = UpdateState.idle (some 7)) := by
  have h := snapshot_phase_from_job_or_idle stIdle dbReady rfl (by decide)
  refine ⟨h.1, fun s hs => ?_⟩
  rw [h.2.1 rfl s hs]
  decide

/-- C8 counterexample: from `c8State` — no live job, and only the radicals
dataset has ever been checked (`lastCheck = 5`) — the worker publishes a
snapshot whose phase is `idle none`, not `idle` of the claimed four-dataset
maximum (`some 5`): the source maximizes over the three major series only. -/
theorem snapshot_idle_lastCheck_ignores_radicals :
    doDbStateNotification c8State = [Effect.dbStateUpdated c8Snapshot] ∧
    c8Snapshot.updateState = UpdateState.idle none ∧
    getLatestCheckTimeSpecFourDatasets c8Db = some 5 ∧
    c8Snapshot.updateState ≠
      UpdateState.idle (getLatestCheckTimeSpecFourDatasets c8Db) := by
  exact ⟨by decide, rfl, by decide, by decide⟩

theorem updateCompleteCount_success_cons (s : MajorDataSeries) (l : List Effect) :
    updateCompleteCount (successBreadcrumb s :: l) = updateCompleteCount l := by
  simp [updateCompleteCount, successBreadcrumb, List.countP_cons]

/-- The three completion callbacks of a fresh cycle, from its kanji step:
names, then words, then cycle end with exactly one `updateComplete`
notification carrying the latest check time. -/
theorem cycle_steps (ctx : CycleCtx) (st1 : WorkerState) (d : JpdictIdb) (l : String)
    (f : Bool) (hdb : st1.db = some d)
    (hcu : st1.currentUpdate = some (UpdateJob.mk l MajorDataSeries.kanji f)) :
    ∃ st2 e2 st3 e3 st4 e4,
      runNextUpdate ctx st1 = some (st2, e2) ∧
      st2.currentUpdate = some (UpdateJob.mk l MajorDataSeries.names f) ∧
      Effect.updateWithRetry MajorDataSeries.names ctx.lang ctx ∈ e2 ∧
      updateCompleteCount e2 = 0 ∧
      runNextUpdate ctx st2 = some (st3, e3) ∧
      st3.currentUpdate = some (UpdateJob.mk l MajorDataSeries.words f) ∧
      Effect.updateWithRetry MajorDataSeries.words ctx.lang ctx ∈ e3 ∧
      updateCompleteCount e3 = 0 ∧
      runNextUpdate ctx st3 = some (st4, e4) ∧
      st4.currentUpdate = none ∧
      updateCompleteCount e4 = 1 ∧
      Effect.dbUpdateComplete (getLatestCheckTime d) ∈ e4 := by
  refine ⟨_, _, _, _, _, _,
    runNextUpdate_kanji ctx st1 l f hcu, rfl,
    List.mem_append_right _ (updateWithRetry_mem_stepStart ctx MajorDataSeries.names), ?_,
    runNextUpdate_names ctx _ l f rfl, rfl,
    List.mem_append_right _ (updateWithRetry_mem_stepStart ctx MajorDataSeries.words), ?_,
    runNextUpdate_words ctx _ l f d rfl hdb, rfl, ?_, ?_⟩
  · rw [updateCompleteCount_append, updateCompleteCount_success_cons,
      updateCompleteCount_doDbStateNotification, updateCompleteCount_stepStart]
  · rw [updateCompleteCount_append, updateCompleteCount_success_cons,
      updateCompleteCount_doDbStateNotification, updateCompleteCount_stepStart]
  · rw [updateCompleteCount_append, updateCompleteCount_success_cons,
      updateCompleteCount_doDbStateNotification]
    rfl
  · exact List.mem_append_right _ (List.mem_singleton.mpr rfl)

/-- C1: every accepted update request (idle worker, or a live job it
supersedes, whatever step that job had reached) starts the cycle at the
kanji step; the completion callbacks advance it to names then words, and
when words completes the job slot is cleared and exactly one
`updateComplete` notification, carrying the latest check time, is emitted
for the whole cycle. -/
theorem accepted_cycle_kanji_names_words_once (st : WorkerState) (d : JpdictIdb)
    (lang : String) (force : Bool)
    (hdb : st.db = some d) (hinit : st.dbInitialized = true)
    (hacc : ∀ j, st.currentUpdate = some j →
      ¬(j.lang = lang ∧ (j.forceUpdate = true ∨ force = false))) :
    ∃ ctx st1 e1, updateAllSeries st lang force = some (st1, e1) ∧
      ctx.lang = lang ∧
      (∃ f, st1.currentUpdate = some (UpdateJob.mk lang MajorDataSeries.kanji f) ∧
        st1.db = some d ∧
        Effect.updateWithRetry MajorDataSeries.kanji lang ctx ∈ e1 ∧
        updateCompleteCount e1 = 0 ∧
        ∃ st2 e2 st3 e3 st4 e4,
          runNextUpdate ctx st1 = some (st2, e2) ∧
          st2.currentUpdate = some (UpdateJob.mk lang MajorDataSeries.names f) ∧
          updateCompleteCount e2 = 0 ∧
          runNextUpdate ctx st2 = some (st3, e3) ∧
          st3.currentUpdate = some (UpdateJob.mk lang MajorDataSeries.words f) ∧
          updateCompleteCount e3 = 0 ∧
          runNextUpdate ctx st3 = some (st4, e4) ∧
          st4.currentUpdate = none ∧
          updateCompleteCount e4 = 1 ∧
          Effect.dbUpdateComplete (getLatestCheckTime d) ∈ e4) := by
  cases hcu : st.currentUpdate with
  | none =>
    have hrun := runNextUpdate_fresh (CycleCtx.mk lang force false) st hcu
    have hva : updateAllSeries st lang force =
        runNextUpdate (CycleCtx.mk lang force false) st := by
      unfold updateAllSeries
      rw [hinit, hcu]
      rfl
    rcases cycle_steps (CycleCtx.mk lang force false)
        { st with currentUpdate := some (UpdateJob.mk lang MajorDataSeries.kanji
            (force || false)) } d lang (force || false) hdb rfl with
      ⟨st2, e2, st3, e3, st4, e4, h2, hc2, _, hn2, h3, hc3, _, hn3, h4, hc4, hn4, hm4⟩
    exact ⟨CycleCtx.mk lang force false, _, _, hva.trans hrun, rfl,
      (force || false), rfl, hdb, updateWithRetry_mem_stepStart _ _,
      updateCompleteCount_stepStart _ _,
      st2, e2, st3, e3, st4, e4, h2, hc2, hn2, h3, hc3, hn3, h4, hc4, hn4, hm4⟩
  | some j =>
    have hne := hacc j hcu
    have hcancel : cancelUpdate st =
        ({ st with currentUpdate := none }, [Effect.cancelUpdateWithRetry j.series]) := by
      unfold cancelUpdate
      rw [hcu]
    have hrun := runNextUpdate_fresh (CycleCtx.mk lang force j.forceUpdate)
      { st with currentUpdate := none } rfl
    have hva : updateAllSeries st lang force =
        some ({ { st with currentUpdate := none } with
            currentUpdate := some (UpdateJob.mk lang MajorDataSeries.kanji
              (force || j.forceUpdate)) },
          [Effect.cancelUpdateWithRetry j.series] ++
            stepStart (CycleCtx.mk lang force j.forceUpdate) MajorDataSeries.kanji) := by
      unfold updateAllSeries
      rw [hinit, hcu]
      dsimp only
      rw [if_neg hne]
      rw [show ({ (cancelUpdate st).1 with currentUpdate := none } : WorkerState) =
          { st with currentUpdate := none } by rw [hcancel]]
      rw [hrun, hcancel]
      simp [hinit]
    rcases cycle_steps (CycleCtx.mk lang force j.forceUpdate)
        { st with currentUpdate := some (UpdateJob.mk lang MajorDataSeries.kanji
            (force || j.forceUpdate)) } d lang (force || j.forceUpdate) hdb rfl with
      ⟨st2, e2, st3, e3, st4, e4, h2, hc2, _, hn2, h3, hc3, _, hn3, h4, hc4, hn4, hm4⟩
    exact ⟨CycleCtx.mk lang force j.forceUpdate, _, _, hva, rfl,
      (force || j.forceUpdate), rfl, hdb,
      List.mem_append_right _ (updateWithRetry_mem_stepStart _ _),
      by rw [updateCompleteCount_append, updateCompleteCount_stepStart]; rfl,
      st2, e2, st3, e3, st4, e4, h2, hc2, hn2, h3, hc3, hn3, h4, hc4, hn4, hm4⟩

/-- C1 witness: the full cycle driven from the idle worker `stIdle` by a
non-forced "en" request. -/
theorem accepted_cycle_kanji_names_words_once_witness :
    ∃ ctx st1 e1, updateAllSeries stIdle "en" false = some (st1, e1) ∧
      ctx.lang = "en" ∧
      (∃ f, st1.currentUpdate = some (UpdateJob.mk "en" MajorDataSeries.kanji f) ∧
        st1.db = some dbReady ∧
        Effect.updateWithRetry MajorDataSeries.kanji "en" ctx ∈ e1 ∧
        updateCompleteCount e1 = 0 ∧
        ∃ st2 e2 st3 e3 st4 e4,
          runNextUpdate ctx st1 = some (st2, e2) ∧
          st2.currentUpdate = some (UpdateJob.mk "en" MajorDataSeries.names f) ∧
          updateCompleteCount e2 = 0 ∧
          runNextUpdate ctx st2 = some (st3, e3) ∧
          st3.currentUpdate = some (UpdateJob.mk "en" MajorDataSeries.words f) ∧
          updateCompleteCount e3 = 0 ∧
          runNextUpdate ctx st3 = some (st4, e4) ∧
          st4.currentUpdate = none ∧
          updateCompleteCount e4 = 1 ∧
          Effect.dbUpdateComplete (getLatestCheckTime dbReady) ∈ e4) :=
  accepted_cycle_kanji_names_words_once stIdle dbReady "en" false rfl rfl
    (fun j hj => by cases hj)

theorem stepStart_forced (ctx : CycleCtx)
    (hforced : (ctx.forceUpdate || ctx.wasForcedUpdate) = true) (s : MajorDataSeries) :
    stepStart ctx s =
      [Effect.clearCachedVersionInfo, Effect.updateWithRetry s ctx.lang ctx] := by
  unfold stepStart
  rw [if_pos hforced]
  rfl

theorem updateWithRetry_not_mem_completion_effects (st : WorkerState)
    (sb : MajorDataSeries) (s : MajorDataSeries) (l : String) (c : CycleCtx) :
    Effect.updateWithRetry s l c ∉ successBreadcrumb sb :: doDbStateNotification st := by
  intro h
  rcases List.mem_cons.mp h with h | h
  · simp [successBreadcrumb] at h
  · rcases mem_doDbStateNotification st _ h with ⟨s', hs⟩
    cases hs

/-- In a forced cycle, a step's effects always end with the cache
invalidation immediately followed by the `updateWithRetry` call. -/
theorem runNextUpdate_forced_clear_before_retry (ctx : CycleCtx) (st : WorkerState)
    (st' : WorkerState) (e : List Effect)
    (hforced : (ctx.forceUpdate || ctx.wasForcedUpdate) = true)
    (h : runNextUpdate ctx st = some (st', e))
    (s : MajorDataSeries) (l : String) (c : CycleCtx)
    (hmem : Effect.updateWithRetry s l c ∈ e) :
    ∃ pre, e = pre ++ [Effect.clearCachedVersionInfo, Effect.updateWithRetry s l c] := by
  cases hcu : st.currentUpdate with
  | none =>
    rw [runNextUpdate_fresh ctx st hcu, Option.some_inj, Prod.mk.injEq] at h
    obtain ⟨h1, h2⟩ := h
    subst h2
    rw [stepStart_forced ctx hforced] at hmem ⊢
    rcases List.mem_cons.mp hmem with hm0 | hm
    · cases hm0
    · obtain ⟨rfl, rfl, rfl⟩ := Effect.updateWithRetry.inj (List.mem_singleton.mp hm)
      exact ⟨[], rfl⟩
  | some j =>
    obtain ⟨jl, js, jf⟩ := j
    cases js with
    | kanji =>
      rw [runNextUpdate_kanji ctx st jl jf hcu, Option.some_inj, Prod.mk.injEq] at h
      obtain ⟨h1, h2⟩ := h
      subst h2
      rw [stepStart_forced ctx hforced] at hmem ⊢
      rcases List.mem_append.mp hmem with hm | hm
      · exact absurd hm (updateWithRetry_not_mem_completion_effects _ _ _ _ _)
      · rcases List.mem_cons.mp hm with hm | hm
        · cases hm
        · obtain ⟨rfl, rfl, rfl⟩ := Effect.updateWithRetry.inj (List.mem_singleton.mp hm)
          exact ⟨_, (List.cons_append _ _ _).symm⟩
    | names =>
      rw [runNextUpdate_names ctx st jl jf hcu, Option.some_inj, Prod.mk.injEq] at h
      obtain ⟨h1, h2⟩ := h
      subst h2
      rw [stepStart_forced ctx hforced] at hmem ⊢
      rcases List.mem_append.mp hmem with hm | hm
      · exact absurd hm (updateWithRetry_not_mem_completion_effects _ _ _ _ _)
      · rcases List.mem_cons.mp hm with hm | hm
        · cases hm
        · obtain ⟨rfl, rfl, rfl⟩ := Effect.updateWithRetry.inj (List.mem_singleton.mp hm)
          exact ⟨_, (List.cons_append _ _ _).symm⟩
    | words =>
      cases hdb : st.db with
      | none =>
        unfold runNextUpdate at h
        rw [hcu, hdb] at h
        cases h
      | some d =>
        rw [runNextUpdate_words ctx st jl jf d hcu hdb, Option.some_inj,
          Prod.mk.injEq] at h
        obtain ⟨h1, h2⟩ := h
        subst h2
        rcases List.mem_append.mp hmem with hm | hm
        · exact absurd hm (updateWithRetry_not_mem_completion_effects _ _ _ _ _)
        · rcases List.mem_singleton.mp hm with hm
          cases hm

/-- C3: a forced cycle — whether the request itself was forced or the flag
was inherited from a superseded forced job — invalidates the cached version
information before every step's `updateWithRetry` call, and superseding a
forced job never loses the flag: the new job and the cycle context both
carry it. -/
theorem forced_cycle_invalidates_cached_version_info :
    (∀ ctx : CycleCtx, (ctx.forceUpdate || ctx.wasForcedUpdate) = true →
      ∀ s, stepStart ctx s =
        [Effect.clearCachedVersionInfo, Effect.updateWithRetry s ctx.lang ctx]) ∧
    (∀ ctx st st' e, (ctx.forceUpdate || ctx.wasForcedUpdate) = true →
      runNextUpdate ctx st = some (st', e) →
      ∀ s l c, Effect.updateWithRetry s l c ∈ e →
        ∃ pre, e = pre ++ [Effect.clearCachedVersionInfo, Effect.updateWithRetry s l c]) ∧
    (∀ st j lang force, st.dbInitialized = true → st.currentUpdate = some j →
      j.forceUpdate = true →
      ¬(j.lang = lang ∧ (j.forceUpdate = true ∨ force = false)) →
      ∃ st1, updateAllSeries st lang force = some (st1,
          [Effect.cancelUpdateWithRetry j.series, Effect.clearCachedVersionInfo,
            Effect.updateWithRetry MajorDataSeries.kanji lang
              (CycleCtx.mk lang force true)]) ∧
        st1.currentUpdate = some (UpdateJob.mk lang MajorDataSeries.kanji true)) := by
  refine ⟨fun ctx h s => stepStart_forced ctx h s,
    fun ctx st st' e h hr s l c hm =>
      runNextUpdate_forced_clear_before_retry ctx st st' e h hr s l c hm, ?_⟩
  intro st j lang force hinit hcu hforced hne
  have hcancel : cancelUpdate st =
      ({ st with currentUpdate := none }, [Effect.cancelUpdateWithRetry j.series]) := by
    unfold cancelUpdate
    rw [hcu]
  have hrun := runNextUpdate_fresh (CycleCtx.mk lang force j.forceUpdate)
    { st with currentUpdate := none } rfl
  refine ⟨{ st with currentUpdate := some (UpdateJob.mk lang MajorDataSeries.kanji true) },
    ?_, rfl⟩
  unfold updateAllSeries
  rw [hinit, hcu]
  dsimp only
  rw [if_neg hne]
  rw [show ({ (cancelUpdate st).1 with currentUpdate := none } : WorkerState) =
      { st with currentUpdate := none } by rw [hcancel]]
  rw [hrun, hcancel]
  simp [hinit, hforced, stepStart_forced, Bool.or_true]

/-- C3 witness: a non-forced "en" request superseding the forced "fr" job
(already at its words step) cancels it, starts a forced cycle at kanji, and
the cache invalidation precedes the kanji `updateWithRetry` call. -/
theorem forced_cycle_invalidates_cached_version_info_witness :
    ∃ st1, updateAllSeries stForcedFr "en" false = some (st1,
        [Effect.cancelUpdateWithRetry MajorDataSeries.words,
          Effect.clearCachedVersionInfo,
          Effect.updateWithRetry MajorDataSeries.kanji "en"
            (CycleCtx.mk "en" false true)]) ∧
      st1.currentUpdate = some (UpdateJob.mk "en" MajorDataSeries.kanji true) :=
  forced_cycle_invalidates_cached_version_info.2.2 stForcedFr jobForcedFr "en" false
    rfl rfl rfl (by decide)

/-- C9: the store open loop makes at most 4 attempts (3 retries), every
retry preceded by the idle backoff wait bounded by a 1000-unit timeout and
the destruction of the partially-opened instance; once all 4 attempts have
failed, update (and query) requests are silently dropped — no job starts, no
notification is emitted — and no `stateUpdated` notification is ever
published. -/
theorem initDb_bounded_then_updates_dropped (outcome : Nat → Bool) (st : WorkerState)
    (hfail0 : outcome 0 = false) (hfail1 : outcome 1 = false)
    (hfail2 : outcome 2 = false) (hfail3 : outcome 3 = false)
    (hinit : st.dbInitialized = false) (hjob : st.currentUpdate = none) :
    initDb outcome = (false, allFailInitTrace) ∧
    (∀ oc : Nat → Bool,
      attemptCount (initDb oc).2 ≤ 4 ∧ initTraceShape (initDb oc).2 = true) ∧
    (∀ msgs : List WorkerMessage, (∀ m ∈ msgs, m ≠ WorkerMessage.delete) →
      runMessages st msgs = (st, [])) ∧
    (∀ msgs : List WorkerMessage, (runMessages st msgs).1 = st ∧
      ∀ s, Effect.dbStateUpdated s ∉ (runMessages st msgs).2) := by
  have hup : ∀ lang force, updateAllSeries st lang force = some (st, []) := by
    intro lang force
    unfold updateAllSeries
    rw [hinit, if_pos rfl]
  have hcan : cancelUpdate st = (st, []) := by
    unfold cancelUpdate
    rw [hjob]
  refine ⟨?_, ?_, ?_, ?_⟩
  · simp [initDb, initDbGo, hfail0, hfail1, hfail2, hfail3, allFailInitTrace]
  · intro oc
    cases h0 : oc 0 <;> cases h1 : oc 1 <;> cases h2 : oc 2 <;> cases h3 : oc 3 <;>
      refine ⟨?_, ?_⟩ <;>
        simp [initDb, initDbGo, h0, h1, h2, h3, attemptCount, initTraceShape,
          backoffShape]
  · intro msgs
    induction msgs with
    | nil => intro _; rfl
    | cons m ms ih =>
      intro hnd
      have hm : handleMessage st m = (st, []) := by
        cases m with
        | querystate => simp [handleMessage, hinit]
        | update lang force => simp [handleMessage, hup lang force]
        | cancelupdate => simpa [handleMessage] using hcan
        | delete => exact absurd rfl (hnd _ (List.mem_cons_self _ _))
      have hms := ih fun m' hm' => hnd m' (List.mem_cons_of_mem _ hm')
      simp [runMessages, hm, hms]
  · have hstep : ∀ m, (handleMessage st m).1 = st ∧
        ∀ s, Effect.dbStateUpdated s ∉ (handleMessage st m).2 := by
      intro m
      cases m with
      | querystate => exact ⟨rfl, fun s => by simp [handleMessage, hinit]⟩
      | update lang force =>
        exact ⟨by simp [handleMessage, hup lang force],
          fun s => by simp [handleMessage, hup lang force]⟩
      | cancelupdate =>
        exact ⟨by simp [handleMessage, hcan], fun s => by simp [handleMessage, hcan]⟩
      | delete =>
        refine ⟨rfl, fun s => ?_⟩
        simp only [handleMessage]
        split <;> simp
    intro msgs
    induction msgs with
    | nil => exact ⟨rfl, fun s h => by cases h⟩
    | cons m ms ih =>
      have hm := hstep m
      constructor
      · show (runMessages (handleMessage st m).1 ms).1 = st
        rw [hm.1]
        exact ih.1
      · intro s hmem
        have : Effect.dbStateUpdated s ∈
            (handleMessage st m).2 ++ (runMessages (handleMessage st m).1 ms).2 := hmem
        rcases List.mem_append.mp this with h | h
        · exact hm.2 s h
        · rw [hm.1] at h
          exact ih.2 s h

/-- C9 witness: with every open attempt failing, `initDb` makes exactly the
4-attempt trace and gives up, and the dead worker `stNoDb` drops an update,
a query and a cancel without any state change or notification. -/
theorem initDb_bounded_then_updates_dropped_witness :
    initDb (fun _ => false) = (false, allFailInitTrace) ∧
    runMessages stNoDb
      [WorkerMessage.update "en" false, WorkerMessage.querystate,
        WorkerMessage.cancelupdate] = (stNoDb, []) := by
  have h := initDb_bounded_then_updates_dropped (fun _ => false) stNoDb
    rfl rfl rfl rfl rfl rfl
  exact ⟨h.1, h.2.2.1 _ (by decide)⟩

end JpdictWorker
